import Mathlib

/-!
Verification of the client-side state management and synchronization core of
the Baguio e-waste map application (src/index.tsx).

The development shallowly embeds:
* the data model (`Location`, `ContactInfo`, `AppState`) and the default
  state `initialAppState` (src/index.tsx lines 6-46);
* the reducer `appReducer` over the six actions (lines 65-92);
* the JSON layer: JS runtime values / parsed JSON trees are modelled by
  `JValue` (JS numbers are modelled as exact rationals, which is faithful
  because JSON round-trips JS numbers exactly), `encodeApp` is the structural
  content of `JSON.stringify` on an `AppState` (object keys in literal/
  insertion order), and `decodeApp` recovers a typed `AppState` from a parsed
  tree when it has the persisted shape;
* the persistence effects: the load-on-mount effect (lines 640-650), the
  save-on-change effect (lines 652-659) and the cross-tab storage event
  handler `handleStorageChange` (lines 662-679).

Stored strings are modelled by their observable behaviour under the two
operations the code applies to them, truthiness and `JSON.parse`
(`StoredString`): the empty string is falsy, and a non-empty string either
parses to a `JValue` or makes `JSON.parse` throw.
-/

namespace EWaste

/-- Data type of a drop-off location (src/index.tsx lines 6-13). JS numbers
are modelled as exact rationals. -/
structure Location where
  id : String
  lat : ℚ
  lng : ℚ
  address : String
  schedule : String
  label : String
deriving DecidableEq

/-- Contact information record (src/index.tsx lines 15-19). -/
structure ContactInfo where
  email : String
  phone : String
  office : String
deriving DecidableEq

/-- The root aggregate state (src/index.tsx lines 21-25). -/
structure AppState where
  locations : List Location
  announcements : String
  contactInfo : ContactInfo
deriving DecidableEq

/-- Reducer actions (src/index.tsx lines 28-34). -/
inductive AppAction where
  | setState (payload : AppState)
  | addLocation (payload : Location)
  | editLocation (payload : Location)
  | deleteLocation (payload : String)
  | setAnnouncements (payload : String)
  | setContactInfo (payload : ContactInfo)

/-- The compiled-in default state (src/index.tsx lines 38-46). -/
def initialAppState : AppState :=
  { locations := []
  , announcements := "No announcements have been posted yet."
  , contactInfo :=
    { email := "contact@baguio-ewaste.gov.ph"
    , phone := "(074) 123-4567"
    , office := "City Environment and Parks Management Office (CEPMO), Baguio City Hall" } }

/-- The state transition function (src/index.tsx lines 65-92). Each case is a
direct transcription of the corresponding `switch` arm. -/
def appReducer (state : AppState) (action : AppAction) : AppState :=
  match action with
  | .setState payload => payload
  | .addLocation payload =>
      { state with locations := state.locations ++ [payload] }
  | .editLocation payload =>
      { state with locations :=
          state.locations.map fun loc => if loc.id = payload.id then payload else loc }
  | .deleteLocation idv =>
      { state with locations := state.locations.filter fun loc => loc.id ≠ idv }
  | .setAnnouncements payload => { state with announcements := payload }
  | .setContactInfo payload => { state with contactInfo := payload }

/-- Model of a JS runtime value / parsed JSON tree. -/
inductive JValue where
  | jnull
  | jbool (b : Bool)
  | jnum (q : ℚ)
  | jstr (s : String)
  | jarr (items : List JValue)
  | jobj (fields : List (String × JValue))

/-- Property lookup on a JS object modelled as an ordered field list. -/
def jlookup (k : String) : List (String × JValue) → Option JValue
  | [] => none
  | (k2, v) :: rest => if k2 = k then some v else jlookup k rest

/-- Structural content of `JSON.stringify` on a `Location`: keys in the order
of the object literal (src/index.tsx lines 6-13, 412-429). -/
def encodeLocation (l : Location) : JValue :=
  .jobj [ ("id", .jstr l.id), ("lat", .jnum l.lat), ("lng", .jnum l.lng)
        , ("address", .jstr l.address), ("schedule", .jstr l.schedule)
        , ("label", .jstr l.label) ]

/-- Structural content of `JSON.stringify` on a `ContactInfo`. -/
def encodeContactInfo (c : ContactInfo) : JValue :=
  .jobj [ ("email", .jstr c.email), ("phone", .jstr c.phone)
        , ("office", .jstr c.office) ]

/-- Structural content of `JSON.stringify` on an `AppState`
(src/index.tsx line 655). -/
def encodeApp (s : AppState) : JValue :=
  .jobj [ ("locations", .jarr (s.locations.map encodeLocation))
        , ("announcements", .jstr s.announcements)
        , ("contactInfo", encodeContactInfo s.contactInfo) ]

/-- Read a string property out of an optional JS value. -/
def asStr : Option JValue → Option String
  | some (.jstr s) => some s
  | _ => none

/-- Read a numeric property out of an optional JS value. -/
def asNum : Option JValue → Option ℚ
  | some (.jnum q) => some q
  | _ => none

/-- Recover a typed `Location` from a parsed JSON tree when it has the
persisted shape; tolerant of extra fields (lookup based). -/
def decodeLocation (v : JValue) : Option Location :=
  match v with
  | .jobj fs =>
    match asStr (jlookup "id" fs), asNum (jlookup "lat" fs), asNum (jlookup "lng" fs),
          asStr (jlookup "address" fs), asStr (jlookup "schedule" fs),
          asStr (jlookup "label" fs) with
    | some i, some la, some ln, some ad, some sc, some lb =>
        some { id := i, lat := la, lng := ln, address := ad, schedule := sc, label := lb }
    | _, _, _, _, _, _ => none
  | _ => none

/-- Recover a list of locations from a list of parsed JSON trees. -/
def decodeLocationList : List JValue → Option (List Location)
  | [] => some []
  | v :: rest =>
    match decodeLocation v, decodeLocationList rest with
    | some l, some ls => some (l :: ls)
    | _, _ => none

/-- Recover a typed `ContactInfo` from a parsed JSON tree. -/
def decodeContactInfo (v : JValue) : Option ContactInfo :=
  match v with
  | .jobj fs =>
    match asStr (jlookup "email" fs), asStr (jlookup "phone" fs),
          asStr (jlookup "office" fs) with
    | some e, some p, some o => some { email := e, phone := p, office := o }
    | _, _, _ => none
  | _ => none

/-- Recover a typed `AppState` from a parsed JSON tree when it has the
persisted shape of section 6 of the spec; tolerant of extra fields. -/
def decodeApp (v : JValue) : Option AppState :=
  match v with
  | .jobj fs =>
    match jlookup "locations" fs, asStr (jlookup "announcements" fs),
          jlookup "contactInfo" fs with
    | some (.jarr items), some ann, some civ =>
      match decodeLocationList items, decodeContactInfo civ with
      | some locs, some c =>
          some { locations := locs, announcements := ann, contactInfo := c }
      | _, _ => none
    | _, _, _ => none
  | _ => none

theorem decodeLocation_encodeLocation (l : Location) :
    decodeLocation (encodeLocation l) = some l := rfl

theorem decodeLocationList_map (ls : List Location) :
    decodeLocationList (ls.map encodeLocation) = some ls := by
  induction ls with
  | nil => rfl
  | cons l rest ih =>
      simp [List.map, decodeLocationList, decodeLocation_encodeLocation, ih]

theorem decodeContactInfo_encodeContactInfo (c : ContactInfo) :
    decodeContactInfo (encodeContactInfo c) = some c := rfl

theorem decodeApp_encodeApp (s : AppState) : decodeApp (encodeApp s) = some s := by
  show (match decodeLocationList (s.locations.map encodeLocation),
              decodeContactInfo (encodeContactInfo s.contactInfo) with
        | some locs, some c =>
            some { locations := locs, announcements := s.announcements, contactInfo := c }
        | _, _ => none) = some s
  rw [decodeLocationList_map, decodeContactInfo_encodeContactInfo]

/-- Model of a JS string as observed by the code: the code only tests a stored
string for truthiness and feeds it to `JSON.parse`. The empty string is falsy;
a non-empty string either parses to a tree or makes `JSON.parse` throw. -/
inductive StoredString where
  | empty
  | parses (v : JValue)
  | malformed

/-- The serialization of a state (src/index.tsx line 655): `JSON.stringify`
emits a non-empty string whose `JSON.parse` image is exactly the encoded tree
(exact for JS, whose number printing round-trips). -/
def serializeApp (s : AppState) : StoredString :=
  StoredString.parses (encodeApp s)

/-- The storage key (src/index.tsx line 637). -/
def STORAGE_KEY : String := "e-waste-data"

/-- The load-on-mount effect (src/index.tsx lines 640-650), as a function from
the stored item (`none` models `localStorage.getItem` returning null) to the
resulting in-memory state, modelled as the JS value it holds. If a stored item
exists and is truthy, its `JSON.parse` image is dispatched verbatim as
`SET_STATE` (no validation, no defaulting); if the item is absent or falsy no
dispatch happens, and if `JSON.parse` throws the error is caught and logged;
in both of those cases the state remains `initialAppState`. -/
def loadEffect (stored : Option StoredString) : JValue :=
  match stored with
  | some (StoredString.parses v) => v
  | some StoredString.malformed => encodeApp initialAppState
  | some StoredString.empty => encodeApp initialAppState
  | none => encodeApp initialAppState

/-- A storage event as observed by the handler: `event.key` and
`event.newValue`, each possibly null. -/
structure StorageEvent where
  key : Option String
  newValue : Option StoredString

/-- The cross-tab synchronization handler (src/index.tsx lines 662-672):
if `event.key === STORAGE_KEY && event.newValue` (null and the empty string
are falsy), `JSON.parse(event.newValue)` is dispatched verbatim as
`SET_STATE`; a parse error is caught and logged and the state is retained;
otherwise nothing is dispatched. The in-memory state is modelled as the JS
value it holds. -/
def handleStorageChange (state : JValue) (ev : StorageEvent) : JValue :=
  match ev.key, ev.newValue with
  | some k, some nv =>
      if k = STORAGE_KEY then
        match nv with
        | StoredString.parses v => v
        | StoredString.malformed => state
        | StoredString.empty => state
      else state
  | some _, none => state
  | none, _ => state

/-- State of the controller in steady operation: the in-memory state, the
currently persisted blob under `STORAGE_KEY`, and the log of writes performed
through `localStorage.setItem`, oldest first. -/
structure SyncState where
  mem : AppState
  stored : Option StoredString
  writes : List StoredString

/-- One local transition followed by the save effect (src/index.tsx lines
652-659): the reducer produces the new state and the effect, which runs on
every state change, writes `JSON.stringify` of that state under the key. -/
def localStep (st : SyncState) (a : AppAction) : SyncState :=
  { mem := appReducer st.mem a
  , stored := some (serializeApp (appReducer st.mem a))
  , writes := st.writes ++ [serializeApp (appReducer st.mem a)] }

/-- A sequence of local transitions, applied in arrival order. -/
def runLocal (st : SyncState) : List AppAction → SyncState
  | [] => st
  | a :: rest => runLocal (localStep st a) rest

theorem runLocal_append (st : SyncState) (xs ys : List AppAction) :
    runLocal st (xs ++ ys) = runLocal (runLocal st xs) ys := by
  induction xs generalizing st with
  | nil => rfl
  | cons a xs ih => simp [runLocal, ih]

/-- Preconditions of the intents, per the intent table of section 4.1 of the
spec: `AddLocation(loc)` requires `loc.id` unique, `ReplaceAll(newState)`
requires the new state to be well-formed (in particular its ids pairwise
distinct); the other four intents carry no precondition. -/
def ValidAction (s : AppState) : AppAction → Prop
  | .setState payload => (payload.locations.map Location.id).Nodup
  | .addLocation loc => loc.id ∉ s.locations.map Location.id
  | .editLocation _ => True
  | .deleteLocation _ => True
  | .setAnnouncements _ => True
  | .setContactInfo _ => True

/-- States reachable from the default state by precondition-respecting
transitions of the reducer. -/
inductive Reachable : AppState → Prop where
  | init : Reachable initialAppState
  | step {s : AppState} {a : AppAction} :
      Reachable s → ValidAction s a → Reachable (appReducer s a)

theorem list_map_eq_self {α : Type} (f : α → α) :
    ∀ (l : List α), (∀ a ∈ l, f a = a) → l.map f = l
  | [], _ => rfl
  | a :: l, h => by
      have ha : f a = a := h a (by simp)
      have hl : l.map f = l :=
        list_map_eq_self f l (fun x hx => h x (by simp [hx]))
      simp [List.map, ha, hl]

theorem edit_preserves_ids (loc : Location) :
    ∀ (l : List Location),
      ((l.map fun x => if x.id = loc.id then loc else x).map Location.id)
        = l.map Location.id
  | [] => rfl
  | x :: l => by
      have ih := edit_preserves_ids loc l
      by_cases h : x.id = loc.id
      · simp [List.map, h, ih]
      · simp [List.map, h, ih]

/-- Sample location used in concrete witnesses (spec section 8, scenario 1). -/
def locA : Location :=
  { id := "a", lat := 16.4, lng := 120.6, address := "City Hall"
  , schedule := "Mon-Fri", label := "CH" }

/-- Sample edited location with the same id as `locA` (scenario 2). -/
def locA2 : Location :=
  { id := "a", lat := 16.5, lng := 120.7, address := "City Hall Annex"
  , schedule := "Tue,Thu", label := "CHA" }

/-- Second sample location (scenario 3). -/
def locB : Location :=
  { id := "b", lat := 16.41, lng := 120.61, address := "SM City Baguio"
  , schedule := "Sat", label := "SM" }

/-- Sample state with one location. -/
def stA : AppState := { initialAppState with locations := [locA] }

/-- Sample state with two locations. -/
def stAB : AppState := { initialAppState with locations := [locA, locB] }

/-- Deserialization of a stored blob to a typed state: `JSON.parse` on the
stored string followed by the shape-typed read of the parsed tree; absence,
emptiness or a parse error yield no state. -/
def deserializeApp (b : StoredString) : Option AppState :=
  match b with
  | StoredString.parses v => decodeApp v
  | StoredString.malformed => none
  | StoredString.empty => none

/-- C1: for every AppState value s, deserializing the serialization of s
yields exactly s: the locations sequence (order and every field, including the
rational-modelled lat/lng values), the announcements text and the contactInfo
record all survive a serialize/deserialize cycle unchanged. -/
theorem serialize_deserialize_roundtrip (s : AppState) :
    deserializeApp (serializeApp s) = some s :=
  decodeApp_encodeApp s

/-- C2: a storage-change event on the application key with a non-empty new
value that parses to the serialization of a state `next` replaces the
in-memory state wholesale with exactly `next` (no merge with the current
state), while an event whose value fails to parse leaves the current state
exactly as it was. -/
theorem storage_event_replaces_wholesale (state : JValue) (next : AppState) :
    handleStorageChange state
        { key := some STORAGE_KEY, newValue := some (serializeApp next) }
      = encodeApp next
    ∧ decodeApp (handleStorageChange state
        { key := some STORAGE_KEY, newValue := some (serializeApp next) })
      = some next
    ∧ handleStorageChange state
        { key := some STORAGE_KEY, newValue := some StoredString.malformed }
      = state :=
  ⟨rfl, decodeApp_encodeApp next, rfl⟩

/-- C3: after any sequence of local transitions ending in a transition by
action a, the in-memory state is the reducer result, the persisted blob under
the key equals the serialization of that new state, and exactly one write was
performed for the final transition, carrying that serialization. -/
theorem local_transition_persists_serialized_state
    (st : SyncState) (pre : List AppAction) (a : AppAction) :
    (runLocal st (pre ++ [a])).mem = appReducer (runLocal st pre).mem a
    ∧ (runLocal st (pre ++ [a])).stored
        = some (serializeApp (runLocal st (pre ++ [a])).mem)
    ∧ (runLocal st (pre ++ [a])).writes
        = (runLocal st pre).writes
            ++ [serializeApp (appReducer (runLocal st pre).mem a)] := by
  rw [runLocal_append]
  exact ⟨rfl, rfl, rfl⟩

/-- C4: at startup, an absent stored item, an empty one, or one on which
deserialization throws all leave the in-memory state equal to the compiled-in
default AppState; the load function is total, so startup completes normally. -/
theorem startup_defaults_on_missing_or_corrupt :
    loadEffect none = encodeApp initialAppState
    ∧ loadEffect (some StoredString.malformed) = encodeApp initialAppState
    ∧ loadEffect (some StoredString.empty) = encodeApp initialAppState
    ∧ decodeApp (encodeApp initialAppState) = some initialAppState :=
  ⟨rfl, rfl, rfl, decodeApp_encodeApp initialAppState⟩

/-- C5 counterexample: the stored blob consisting of the empty JSON object
parses successfully, and the load effect adopts it verbatim: the adopted
state is the empty object, which differs from the default state and does not
even have the shape of an AppState — no absent field was defaulted. -/
theorem partial_blob_not_defaulted_cex :
    loadEffect (some (StoredString.parses (JValue.jobj []))) = JValue.jobj []
    ∧ loadEffect (some (StoredString.parses (JValue.jobj []))) ≠ encodeApp initialAppState
    ∧ decodeApp (JValue.jobj []) = none := by
  refine ⟨rfl, ?_, rfl⟩
  intro h
  simp [loadEffect, encodeApp, encodeContactInfo] at h

/-- C5 amended: a persisted blob that parses successfully is adopted verbatim
as the whole in-memory state, with no per-field defaulting: an object whose
locations field is absent is adopted as is, and the adopted state then lacks
the AppState shape instead of falling back to the compiled-in defaults. -/
theorem partial_blob_adopted_verbatim (fs : List (String × JValue)) :
    loadEffect (some (StoredString.parses (JValue.jobj fs))) = JValue.jobj fs
    ∧ (jlookup "locations" fs = none →
        decodeApp (loadEffect (some (StoredString.parses (JValue.jobj fs)))) = none) := by
  refine ⟨rfl, fun h => ?_⟩
  simp [loadEffect, decodeApp, h]

/-- Witness for the amended C5 at the concrete empty-object blob. -/
theorem partial_blob_adopted_verbatim_witness :
    loadEffect (some (StoredString.parses (JValue.jobj []))) = JValue.jobj []
    ∧ decodeApp (loadEffect (some (StoredString.parses (JValue.jobj [])))) = none :=
  ⟨(partial_blob_adopted_verbatim []).1, (partial_blob_adopted_verbatim []).2 rfl⟩

/-- C10: a storage-change event on the application key whose new value is
absent (key removed) or the empty string causes no dispatch: the in-memory
state is exactly unchanged. -/
theorem storage_event_empty_ignored (state : JValue) :
    handleStorageChange state { key := some STORAGE_KEY, newValue := none } = state
    ∧ handleStorageChange state
        { key := some STORAGE_KEY, newValue := some StoredString.empty } = state :=
  ⟨rfl, rfl⟩

theorem map_edit_eq_set (loc : Location) (l : List Location)
    (hnd : (l.map Location.id).Nodup) (i : ℕ) (li : Location)
    (hget : l[i]? = some li) (hid : li.id = loc.id) :
    l.map (fun x => if x.id = loc.id then loc else x) = l.set i loc := by
  obtain ⟨hi, hgi⟩ := List.getElem?_eq_some.mp hget
  apply List.ext_getElem
  · simp
  · intro n h1 h2
    have hn : n < l.length := by simpa using h1
    rw [List.getElem_map, List.getElem_set]
    by_cases hni : i = n
    · subst hni
      rw [hgi]
      simp [hid]
    · have him : i < (l.map Location.id).length := by simpa using hi
      have hnm : n < (l.map Location.id).length := by simpa using hn
      have hne : l[n].id ≠ loc.id := by
        intro hcon
        apply hni
        have hmi : (l.map Location.id)[i] = li.id := by
          simp [hgi]
        have hmn : (l.map Location.id)[n] = l[n].id := by
          simp
        have heq : (l.map Location.id)[i] = (l.map Location.id)[n] := by
          rw [hmi, hmn, hid, hcon]
        exact (hnd.getElem_inj_iff).mp heq
      simp [hni, hne]

/-- C6: for every state s and AddLocation(loc) intent whose loc.id is unique
with respect to s.locations, the new locations sequence is s.locations with
loc appended at the end, and the announcements and contactInfo fields are
unchanged. -/
theorem addLocation_appends (s : AppState) (loc : Location)
    (h : loc.id ∉ s.locations.map Location.id) :
    (appReducer s (.addLocation loc)).locations = s.locations ++ [loc]
    ∧ (appReducer s (.addLocation loc)).announcements = s.announcements
    ∧ (appReducer s (.addLocation loc)).contactInfo = s.contactInfo :=
  ⟨rfl, rfl, rfl⟩

/-- Witness for C6: adding the sample location to the default state yields
exactly that one location and changes nothing else. -/
theorem addLocation_appends_witness :
    (appReducer initialAppState (AppAction.addLocation locA)).locations = [locA]
    ∧ (appReducer initialAppState (AppAction.addLocation locA)).announcements
        = initialAppState.announcements
    ∧ (appReducer initialAppState (AppAction.addLocation locA)).contactInfo
        = initialAppState.contactInfo := by
  have h := addLocation_appends initialAppState locA (by simp [initialAppState])
  simpa [initialAppState] using h

/-- C7: EditLocation(loc) with no matching id is an exact no-op; with ids
pairwise distinct (the standing invariant) and a matching entry at position i,
the result replaces exactly that position by loc, keeping every other entry,
the order, and the announcements and contactInfo fields. -/
theorem editLocation_replaces_or_noop (s : AppState) (loc : Location) :
    ((∀ l ∈ s.locations, l.id ≠ loc.id) → appReducer s (.editLocation loc) = s)
    ∧ ((s.locations.map Location.id).Nodup →
        ∀ (i : ℕ) (li : Location), s.locations[i]? = some li → li.id = loc.id →
          appReducer s (.editLocation loc)
            = { s with locations := s.locations.set i loc }) := by
  constructor
  · intro h
    have hmap : s.locations.map (fun x => if x.id = loc.id then loc else x)
        = s.locations :=
      list_map_eq_self _ _ (fun a ha => by simp [h a ha])
    show { s with locations :=
        s.locations.map fun x => if x.id = loc.id then loc else x } = s
    rw [hmap]
  · intro hnd i li hget hid
    show { s with locations :=
        s.locations.map fun x => if x.id = loc.id then loc else x }
      = { s with locations := s.locations.set i loc }
    rw [map_edit_eq_set loc s.locations hnd i li hget hid]

/-- Witness for C7: editing the first of two sample locations replaces it in
place, and editing with an unknown id leaves the state unchanged. -/
theorem editLocation_replaces_or_noop_witness :
    appReducer stAB (AppAction.editLocation locA2)
      = { stAB with locations := [locA2, locB] }
    ∧ appReducer stA (AppAction.editLocation locB) = stA := by
  constructor
  · have h := (editLocation_replaces_or_noop stAB locA2).2
      (by simp [stAB, locA, locB]) 0 locA (by rfl) (by rfl)
    simpa [stAB] using h
  · exact (editLocation_replaces_or_noop stA locB).1
      (by simp [stA, locA, locB, initialAppState])

/-- C8: DeleteLocation(id) keeps exactly the entries whose id differs, in
their original relative order (every entry of the result has a differing id,
and the result is the filter of the original sequence); the other fields are
unchanged, and when no entry matches the state is exactly unchanged. -/
theorem deleteLocation_filters (s : AppState) (idv : String) :
    (appReducer s (.deleteLocation idv)).locations
        = s.locations.filter (fun l => l.id ≠ idv)
    ∧ (∀ l ∈ (appReducer s (.deleteLocation idv)).locations, l.id ≠ idv)
    ∧ (appReducer s (.deleteLocation idv)).announcements = s.announcements
    ∧ (appReducer s (.deleteLocation idv)).contactInfo = s.contactInfo
    ∧ ((∀ l ∈ s.locations, l.id ≠ idv) → appReducer s (.deleteLocation idv) = s) := by
  refine ⟨rfl, ?_, rfl, rfl, ?_⟩
  · intro l hl
    simp only [appReducer] at hl
    have h2 := (List.mem_filter.mp hl).2
    simpa using h2
  · intro h
    have hf : s.locations.filter (fun l => l.id ≠ idv) = s.locations :=
      List.filter_eq_self.mpr (fun a ha => by simpa using h a ha)
    show { s with locations := s.locations.filter fun l => l.id ≠ idv } = s
    rw [hf]

/-- Witness for C8: deleting an unknown id from the two-location sample state
is an exact no-op, and deleting id a keeps exactly the other location. -/
theorem deleteLocation_filters_witness :
    appReducer stAB (AppAction.deleteLocation "zzz") = stAB
    ∧ (appReducer stAB (AppAction.deleteLocation "a")).locations = [locB] := by
  constructor
  · exact (deleteLocation_filters stAB "zzz").2.2.2.2
      (by simp [stAB, locA, locB, initialAppState])
  · have h := (deleteLocation_filters stAB "a").1
    rw [h]
    simp [stAB, locA, locB, initialAppState]

/-- C9: starting from the default state, every precondition-respecting
transition of the reducer preserves pairwise distinctness of the location
ids, so the uniqueness invariant holds in every reachable state. -/
theorem reachable_ids_nodup (s : AppState) (h : Reachable s) :
    (s.locations.map Location.id).Nodup := by
  induction h with
  | init => simp [initialAppState]
  | @step s a hr hv ih =>
      cases a with
      | setState payload => exact hv
      | addLocation loc =>
          show ((s.locations ++ [loc]).map Location.id).Nodup
          rw [List.map_append]
          simp only [List.nodup_append]
          refine ⟨ih, by simp, ?_⟩
          intro x hx hx2
          apply hv
          have : x = loc.id := by simpa using hx2
          rwa [this] at hx
      | editLocation loc =>
          show ((s.locations.map fun x =>
              if x.id = loc.id then loc else x).map Location.id).Nodup
          rw [edit_preserves_ids]
          exact ih
      | deleteLocation idv =>
          have hsub : List.Sublist
              ((s.locations.filter fun l => l.id ≠ idv).map Location.id)
              (s.locations.map Location.id) :=
            List.Sublist.map Location.id (List.filter_sublist s.locations)
          exact List.Nodup.sublist hsub ih
      | setAnnouncements t => exact ih
      | setContactInfo c => exact ih

/-- Witness for C9: the state reached from the default state by one valid
AddLocation transition has pairwise distinct ids. -/
theorem reachable_ids_nodup_witness :
    ((appReducer initialAppState
        (AppAction.addLocation locA)).locations.map Location.id).Nodup :=
  reachable_ids_nodup _
    (Reachable.step Reachable.init (by simp [ValidAction, initialAppState]))

end EWaste
